import Mathlib

/-!
Shallow embedding of the reconciliation scripts of the Hololive-KakaoTalk bot
repository (sync_official_names.py, update_members.py, fix_korean_names.py,
fix_japanese_hashtag_labels.py, scripts/fix_japanese_labels.py), together with
theorems settling the specification claims about them.

Strings are modelled as lists of characters; Python's substring test `a in b`,
`str.replace`, and the colon-collapsing regular expression substitution are
modelled by executable recursive functions below.
-/

set_option maxRecDepth 8192

namespace HoloBot

/-- Strings are modelled as lists of characters. -/
abbrev Str := List Char

/-- Python's substring test `pat in s` on strings: true iff `pat` occurs
contiguously in `s`.  As in Python, the empty string occurs in every string. -/
def pyIn (pat : Str) : Str → Bool
  | [] => pat.isEmpty
  | c :: cs => pat.isPrefixOf (c :: cs) || pyIn pat cs

theorem pyIn_iff (pat s : Str) : pyIn pat s = true ↔ pat <:+: s := by
  induction s with
  | nil =>
    simp [ pyIn, List.infix_nil]
  | cons c cs ih =>
    simp [ pyIn, List.infix_cons_iff, ih, List.isPrefixOf_iff_prefix]

/-- The containment match used at sync_official_names.py lines 96-98 and
update_members.py lines 105-106: `x in y or y in x` on two name strings. -/
def nmatches (x y : Str) : Bool := pyIn x y || pyIn y x

/-- The full match condition of the schedule-name alias loop
(sync_official_names.py lines 96-98): the candidate is contained in the
member's Japanese name or vice versa, or it is contained in (or contains)
one of the member's current `ja` aliases. -/
def matchCond (memberJa : Str) (aliases : List Str) (s : Str) : Bool :=
  pyIn s memberJa || pyIn memberJa s ||
    aliases.any (fun a => pyIn s a || pyIn a s)

/-- Fuel-bounded worker for `strRepl`.  Each step consumes at least one
character of the input and one unit of fuel, so fuel equal to the input
length always suffices (`strReplAux_fuel`). -/
def strReplAux (pat rep : Str) : Nat → Str → Str
  | 0, s => s
  | _ + 1, [] => []
  | fuel + 1, c :: cs =>
    if pat ≠ [] ∧ pat.isPrefixOf (c :: cs) then
      rep ++ strReplAux pat rep fuel (List.drop pat.length (c :: cs))
    else
      c :: strReplAux pat rep fuel cs

/-- Python's `str.replace(pat, rep)`: replace every non-overlapping occurrence
of `pat`, scanning left to right; the replacement text is not rescanned.
(All patterns used by the scripts are non-empty; for an empty pattern this
model returns the string unchanged, an edge case no call site exercises.) -/
def strRepl (pat rep s : Str) : Str := strReplAux pat rep s.length s

theorem strReplAux_of_not_pyIn (pat rep : Str) (fuel : Nat) (s : Str)
    (h : pyIn pat s = false) : strReplAux pat rep fuel s = s := by
  induction fuel generalizing s with
  | zero => rw [ strReplAux]
  | succ f ih =>
    cases s with
    | nil => rw [ strReplAux]
    | cons c cs =>
      rw [ pyIn, Bool.or_eq_false_iff] at h
      rw [ strReplAux, if_neg (by simp [h.1]), ih cs h.2]

theorem strRepl_of_not_pyIn (pat rep : Str) (s : Str) (h : pyIn pat s = false) :
    strRepl pat rep s = s :=
  strReplAux_of_not_pyIn pat rep s.length s h

/-- Python's `\s` character class (Unicode whitespace, as matched by
`re.sub(r':\s*:\s*', ': ', ...)` in scripts/fix_japanese_labels.py). -/
def isWs (c : Char) : Bool :=
  let n := c.toNat
  (9 ≤ n && n ≤ 13) || n = 32 || (28 ≤ n && n ≤ 31) || n = 133 || n = 160 ||
    n = 5760 || (8192 ≤ n && n ≤ 8202) || n = 8232 || n = 8233 || n = 8239 ||
    n = 8287 || n = 12288

/-- Attempt to match the remainder `\s*:\s*` of the pattern `:\s*:\s*` right
after an initial `:`.  Both whitespace runs are taken maximally, matching the
greedy regex semantics (whitespace characters are never `:`; hence
backtracking can never produce a different match). -/
def afterColon (cs : Str) : Option Str :=
  match cs.dropWhile isWs with
  | ':' :: r2 => some (r2.dropWhile isWs)
  | _ => none

theorem afterColon_length {cs rest : Str} (h : afterColon cs = some rest) :
    rest.length < cs.length + 1 := by
  unfold afterColon at h
  have hdw : (cs.dropWhile isWs).length ≤ cs.length :=
    List.Sublist.length_le (List.dropWhile_sublist isWs)
  cases hr : cs.dropWhile isWs with
  | nil => rw [hr] at h; exact absurd h (by simp)
  | cons a r2 =>
    rw [hr] at h
    by_cases ha : a = ':'
    · subst ha
      simp only at h
      cases h
      have h2 : (r2.dropWhile isWs).length ≤ r2.length :=
        List.Sublist.length_le (List.dropWhile_sublist isWs)
      rw [hr] at hdw
      simp only [List.length_cons] at hdw
      omega
    · exact absurd h (by simp [ha])

/-- Fuel-bounded worker for `collapseColons`.  By `afterColon_length`, each
step consumes at least one character, so fuel equal to the input length
always suffices. -/
def collapseAux : Nat → Str → Str
  | 0, s => s
  | _ + 1, [] => []
  | fuel + 1, c :: cs =>
    if c = ':' then
      match afterColon cs with
      | some rest => ':' :: ' ' :: collapseAux fuel rest
      | none => c :: collapseAux fuel cs
    else
      c :: collapseAux fuel cs

/-- The substitution `re.sub(r':\s*:\s*', ': ', s)` of
scripts/fix_japanese_labels.py line 61: scan left to right; at each `:` that is
followed (after optional whitespace) by a second `:` and optional whitespace,
replace the whole match by `": "` and continue after it; otherwise move on. -/
def collapseColons (s : Str) : Str := collapseAux s.length s

/-- Decides whether `s` contains an occurrence of the pattern `:\s*:`
(so `collapseColons` would change it). -/
def hasCollapsible : Str → Bool
  | [] => false
  | c :: cs => (c = ':' && (afterColon cs).isSome) || hasCollapsible cs

theorem collapseAux_of_not_hasCollapsible (fuel : Nat) (s : Str)
    (h : hasCollapsible s = false) : collapseAux fuel s = s := by
  induction fuel generalizing s with
  | zero => rw [ collapseAux]
  | succ f ih =>
    cases s with
    | nil => rw [ collapseAux]
    | cons c cs =>
      rw [ hasCollapsible, Bool.or_eq_false_iff] at h
      rw [ collapseAux]
      by_cases hc : c = ':'
      · rw [if_pos hc]
        cases hAC : afterColon cs with
        | some rest =>
          exfalso
          have := h.1
          rw [hc, hAC] at this
          simp at this
        | none => rw [ih cs h.2]
      · rw [if_neg hc, ih cs h.2]

theorem collapseColons_of_not_hasCollapsible (s : Str)
    (h : hasCollapsible s = false) : collapseColons s = s :=
  collapseAux_of_not_hasCollapsible s.length s h

/-- The `replacements` table of scripts/fix_japanese_labels.py lines 15-53,
in source (insertion) order. -/
def scriptsTable : List (Str × Str) :=
  [("配信タグ：".data, "방송 태그: ".data),
   ("配信タグ:".data, "방송 태그: ".data),
   ("配信タグ".data, "방송 태그: ".data),
   ("ファンアートタグ：".data, "팬아트 태그: ".data),
   ("ファンアートタグ:".data, "팬아트 태그: ".data),
   ("ファンアート：".data, "팬아트 태그: ".data),
   ("ファンアート:".data, "팬아트 태그: ".data),
   ("ファンアート".data, "팬아트 태그: ".data),
   ("アートタグ：".data, "팬아트 태그: ".data),
   ("アートタグ :".data, "팬아트 태그: ".data),
   ("アートタグ".data, "팬아트 태그: ".data),
   ("切り抜き動画：".data, "클립: ".data),
   ("切り抜き動画:".data, "클립: ".data),
   ("切り抜き：".data, "클립: ".data),
   ("切り抜き:".data, "클립: ".data),
   ("ミーム投稿：".data, "밈: ".data),
   ("ミーム投稿:".data, "밈: ".data),
   ("ミーム：".data, "밈: ".data),
   ("ミーム:".data, "밈: ".data),
   ("楽曲感想：".data, "악곡 감상: ".data),
   ("楽曲感想:".data, "악곡 감상: ".data),
   ("歌の感想：".data, "악곡 감상: ".data),
   ("歌の感想:".data, "악곡 감상: ".data),
   ("ボイス感想：".data, "보이스 감상: ".data),
   ("ボイス感想:".data, "보이스 감상: ".data),
   ("ショート：".data, "쇼트: ".data),
   ("ショート:".data, "쇼트: ".data),
   ("MMD作品：".data, "MMD 작품: ".data),
   ("MMD作品:".data, "MMD 작품: ".data),
   ("マイクラ投稿：".data, "마인크래프트: ".data),
   ("マイクラ投稿:".data, "마인크래프트: ".data),
   ("ホロリー＆聖地巡礼：".data, "홀로리 & 성지순례: ".data),
   ("ホロリー＆聖地巡礼:".data, "홀로리 & 성지순례: ".data),
   ("ファンネーム：".data, "팬 이름: ".data),
   ("ファンネーム:".data, "팬 이름: ".data),
   ("정기방송：".data, "정기방송: ".data),
   ("밈：".data, "밈: ".data)]

/-- Application of an ordered replacement table: each pair is applied as a
whole-string substring replacement, later pairs operating on the output of
earlier ones (the `for` loop of scripts/fix_japanese_labels.py lines 56-57). -/
def replacePhase (table : List (Str × Str)) (s : Str) : Str :=
  table.foldl (fun acc p => strRepl p.1 p.2 acc) s

/-- `fix_hashtag_labels` of scripts/fix_japanese_labels.py lines 9-63:
ordered substring replacements, then the colon-collapsing substitution. -/
def fixScripts (s : Str) : Str := collapseColons (replacePhase scriptsTable s)

/-- The `LABEL_REPLACEMENTS` table of fix_japanese_hashtag_labels.py
lines 9-18, in source (insertion) order. -/
def simpleTable : List (Str × Str) :=
  [("配信タグ".data, "방송 태그".data),
   ("ファンアート".data, "팬아트".data),
   ("歌の感想".data, "노래 감상".data),
   ("ミーム投稿".data, "밈 투고".data),
   ("ミーム".data, "밈".data),
   ("マイクラ投稿".data, "마인크래프트 투고".data),
   ("切り抜き".data, "클립".data),
   ("切り抜き動画".data, "클립 영상".data)]

/-- `fix_hashtag_labels` of fix_japanese_hashtag_labels.py lines 20-27: for
each table pair, replace the token followed by a full-width colon, then the
token followed by a half-width colon, both with the target plus `": "`. -/
def fixSimple (s : Str) : Str :=
  simpleTable.foldl
    (fun acc p =>
      strRepl (p.1 ++ [':']) (p.2 ++ [':', ' '])
        (strRepl (p.1 ++ ['：']) (p.2 ++ [':', ' ']) acc)) s

theorem replacePhase_of_no_token (table : List (Str × Str)) (s : Str)
    (h : ∀ p ∈ table, pyIn p.1 s = false) : replacePhase table s = s := by
  induction table with
  | nil => rfl
  | cons p ps ih =>
    have h1 : strRepl p.1 p.2 s = s :=
      strRepl_of_not_pyIn p.1 p.2 s (h p (by simp))
    show replacePhase ps (strRepl p.1 p.2 s) = s
    rw [h1]
    exact ih fun q hq => h q (by simp [hq])

/-- C2 counterexample: `fix_hashtag_labels` of scripts/fix_japanese_labels.py
is not idempotent.  On the input `":::"` the replacement phase fires no token
and the colon-collapsing substitution rewrites the first, non-overlapping
`"::"` to `": "`, giving `": :"`; a second application collapses that to
`": "`, so `normalize(normalize(s)) ≠ normalize(s)` at `s = ":::"`. -/
theorem C2_counterexample :
    fixScripts (fixScripts ":::".data) ≠ fixScripts ":::".data := by
  decide

/-- C2 (amended): normalization is idempotent exactly on the stable outputs:
if the normalized form `normalize(s)` contains no source token of the
replacement table and no residual `:\s*:` pattern, then
`normalize(normalize(s)) = normalize(s)`.  In general idempotence fails
(see the counterexample at `s = ":::"`, whose normal form `": :"` still
contains a collapsible colon pair). -/
theorem C2_normalize_idempotent_on_stable (s : Str)
    (hTok : scriptsTable.all (fun p => !pyIn p.1 (fixScripts s)) = true)
    (hCol : hasCollapsible (fixScripts s) = false) :
    fixScripts (fixScripts s) = fixScripts s := by
  have h1 : replacePhase scriptsTable (fixScripts s) = fixScripts s :=
    replacePhase_of_no_token _ _ fun p hp => by
      simpa using List.all_eq_true.mp hTok p hp
  show collapseColons (replacePhase scriptsTable (fixScripts s)) = fixScripts s
  rw [h1, collapseColons_of_not_hasCollapsible _ hCol]

/-- C2 witness: the amended idempotence at the concrete input
`"配信タグ：朝活"`, whose normal form `"방송 태그: 朝活"` is stable. -/
theorem C2_witness :
    fixScripts (fixScripts "配信タグ：朝活".data) = fixScripts "配信タグ：朝活".data :=
  C2_normalize_idempotent_on_stable "配信タグ：朝活".data (by decide) (by decide)

/-- C8 counterexample: the input `"::"` contains no source token of the
replacement table, yet `fix_hashtag_labels` does not return it unchanged —
the colon-collapsing substitution still rewrites it to `": "`. -/
theorem C8_counterexample :
    scriptsTable.all (fun p => !pyIn p.1 "::".data) = true ∧
    fixScripts "::".data ≠ "::".data :=
  ⟨by decide, by decide⟩

/-- C8 (amended): if no source token of the replacement table occurs in the
input and the input additionally contains no `:\s*:` pattern (so the final
colon-collapsing substitution cannot fire either), then `fix_hashtag_labels`
of scripts/fix_japanese_labels.py returns the input unchanged. -/
theorem C8_no_token_fixed (s : Str)
    (hTok : scriptsTable.all (fun p => !pyIn p.1 s) = true)
    (hCol : hasCollapsible s = false) :
    fixScripts s = s := by
  show collapseColons (replacePhase scriptsTable s) = s
  rw [replacePhase_of_no_token _ _ fun p hp => by
        simpa using List.all_eq_true.mp hTok p hp,
      collapseColons_of_not_hasCollapsible s hCol]

/-- C8 witness: the amended claim at the concrete input `"hello: world"`,
which contains no source token and no collapsible colon pair. -/
theorem C8_witness : fixScripts "hello: world".data = "hello: world".data :=
  C8_no_token_fixed "hello: world".data (by decide) (by decide)

/-- C10 counterexample: the two label-normalization implementations disagree
at the Scenario 2 input `"ファンアートタグ:絵"` — so they do not compute the
same function. -/
theorem C10_counterexample :
    fixScripts "ファンアートタグ:絵".data ≠ fixSimple "ファンアートタグ:絵".data := by
  decide

/-- C10 (amended): the two implementations differ.  On `"ファンアートタグ:絵"`,
`fix_hashtag_labels` of scripts/fix_japanese_labels.py produces the Scenario 2
output `"팬아트 태그: 絵"` (its table holds the compound token), while
`fix_hashtag_labels` of fix_japanese_hashtag_labels.py leaves the input
unchanged (none of its eight tokens, each requiring an immediately following
colon, occurs in it). -/
theorem C10_scripts_meets_scenario2_simple_does_not :
    fixScripts "ファンアートタグ:絵".data = "팬아트 태그: 絵".data ∧
    fixSimple "ファンアートタグ:絵".data = "ファンアートタグ:絵".data :=
  ⟨by decide, by decide⟩

/-- The per-language alias dictionary of a member record.  Only the `ja` and
`ko` keys are read or written by the scripts; `none` models an absent key,
and a dictionary with both keys absent models the empty (falsy) dict `{}`. -/
structure AliasMap where
  ja : Option (List Str)
  ko : Option (List Str)
  deriving DecidableEq

/-- A member record of members.json, restricted to the fields the scripts
read or write.  `none` models an absent key (so `member.get(...)` returns
`None`). -/
structure Member where
  name : Str
  nameJa : Option Str
  nameKo : Option Str
  aliases : Option AliasMap
  deriving DecidableEq

/-- Association-list model of a Python dict lookup `table.get(key)`;
the scripts' dicts have pairwise distinct keys, so first match equals the
dict entry. -/
def lookupStr (table : List (Str × Str)) (key : Str) : Option Str :=
  (table.find? (fun p => p.1 == key)).map (fun p => p.2)

/-- Python falsiness of an optional string field: key absent, `None`, or the
empty string. -/
def strFalsy : Option Str → Bool
  | none => true
  | some s => s.isEmpty

/-- The first Korean alias when the guard of sync_official_names.py line 73
(`member.get('aliases') and member['aliases'].get('ko') and len(...) > 0`)
holds, i.e. the alias dict is present and its `ko` list is non-empty. -/
def koFirst : Option AliasMap → Option Str
  | none => none
  | some a =>
    match a.ko with
    | some (k :: _) => some k
    | _ => none

/-- Boolean well-formedness condition used by the amended C1/C9 claims: every
stored Korean alias is a non-empty string. -/
def koAliasesNonempty (m : Member) : Bool :=
  match m.aliases with
  | none => true
  | some a => (a.ko.getD []).all (fun k => !k.isEmpty)

/-- Step 1 of the per-member loop of sync_official_names.py (lines 57-69):
if the member's English name is in the official map and the stored `nameJa`
differs from the official Japanese name, overwrite it.  The Boolean reports
whether `nameJa` was updated (the `nameJa_updated` counter). -/
def step1 (official : List (Str × Str)) (m : Member) : Member × Bool :=
  match lookupStr official m.name with
  | none => (m, false)
  | some officialJa =>
    if m.nameJa = some officialJa then (m, false)
    else ({ m with nameJa := some officialJa }, true)

/-- Step 2 of the per-member loop of sync_official_names.py (lines 71-80):
if `nameKo` is missing or falsy, write the first Korean alias, else the
English name.  The Boolean reports whether `nameKo` was written (the
`nameKo_added` counter). -/
def step2 (m : Member) : Member × Bool :=
  if strFalsy m.nameKo then
    match koFirst m.aliases with
    | some k => ({ m with nameKo := some k }, true)
    | none => ({ m with nameKo := some m.name }, true)
  else (m, false)

/-- The alias-merge attempt of sync_official_names.py lines 100-105: append
the candidate unless it is already present or equals the member's `nameJa`.
The Boolean reports whether an append happened. -/
def mergeSync (l : List Str) (cand memberJa : Str) : List Str × Bool :=
  if cand ∉ l ∧ cand ≠ memberJa then (l ++ [cand], true) else (l, false)

/-- The alias-merge attempt of update_members.py lines 108-113: append the
candidate unless it is already present (no canonical-name check).  The
Boolean reports whether an append happened (the `ja_alias_added` counter). -/
def mergeUM (l : List Str) (cand : Str) : List Str × Bool :=
  if cand ∉ l then (l ++ [cand], true) else (l, false)

/-- The inner schedule-name loop of sync_official_names.py lines 94-105:
for each candidate in order, if the match condition holds against the
member's `nameJa` and his current (growing) alias list, attempt the merge.
Returns the final alias list and the number of appends. -/
def addLoop (memberJa : Str) : List Str → List Str → List Str × Nat
  | aliases, [] => (aliases, 0)
  | aliases, s :: rest =>
    if matchCond memberJa aliases s then
      ((addLoop memberJa (mergeSync aliases s memberJa).1 rest).1,
       (addLoop memberJa (mergeSync aliases s memberJa).1 rest).2 +
         (if (mergeSync aliases s memberJa).2 then 1 else 0))
    else
      addLoop memberJa aliases rest

/-- The candidate loop of update_members.py lines 100-113 (run only when the
member's `ja` alias list is present and non-empty): same match condition,
but the merge lacks the `candidate ≠ nameJa` check. -/
def addLoopUM (memberJa : Str) : List Str → List Str → List Str
  | aliases, [] => aliases
  | aliases, s :: rest =>
    if matchCond memberJa aliases s then
      addLoopUM memberJa (mergeUM aliases s).1 rest
    else
      addLoopUM memberJa aliases rest

/-- Step 3 of the per-member loop of sync_official_names.py (lines 82-105):
normalize the alias dict (`None`/missing becomes `{}`, missing `ja` becomes
`[]`), then run the schedule-name loop.  Returns the updated member and the
number of `ja` aliases added. -/
def step3 (schedule : List Str) (m : Member) : Member × Nat :=
  let memberJa := m.nameJa.getD []
  let a := m.aliases.getD ⟨none, none⟩
  let ja0 := a.ja.getD []
  ({ m with aliases := some { a with ja := some (addLoop memberJa ja0 schedule).1 } },
   (addLoop memberJa ja0 schedule).2)

/-- The outcome of one iteration of the per-member loop of
sync_official_names.py `main` on one member: the updated record and the
contributions to the `nameJa_updated`, `nameKo_added` and `ja_alias_added`
counters. -/
structure RunStats where
  member : Member
  nameJaUpdated : Bool
  nameKoWritten : Bool
  jaAliasesAdded : Nat
  deriving DecidableEq

/-- One iteration of the per-member loop of sync_official_names.py `main`
(lines 53-105): step 1, then step 2, then step 3, sequentially on the same
record. -/
def runMember (official : List (Str × Str)) (schedule : List Str) (m : Member) :
    RunStats :=
  ⟨(step3 schedule (step2 (step1 official m).1).1).1,
   (step1 official m).2,
   (step2 (step1 official m).1).2,
   (step3 schedule (step2 (step1 official m).1).1).2⟩

/-- The whole loop of sync_official_names.py `main` over the registry: each
member is processed independently against the same inputs. -/
def runRegistry (official : List (Str × Str)) (schedule : List Str)
    (members : List Member) : List RunStats :=
  members.map (runMember official schedule)

/-- The denylist of non-member schedule tokens
(sync_official_names.py line 42). -/
def denylist : List Str :=
  ["カルーセル".data, "ホロライブ".data, "ReGLOSS".data, "FLOW GLOW".data]

/-- The schedule-name candidates after denylist filtering
(sync_official_names.py lines 41-42; the Python set comprehension also
deduplicates — the claims below are insensitive to duplication, and the
set's iteration order is modelled by the list order given). -/
def scheduleNames (entries : List Str) : List Str :=
  entries.filter (fun e => !denylist.contains e)

theorem pyIn_nil_left (s : Str) : pyIn [] s = true := by
  cases s <;> simp [ pyIn]

/-- C3 counterexample: the code has no empty-input guard.  Python's `in`
holds for the empty string against any string, so `matches("", "あ")` is
true — and a member whose `nameJa` is the empty string satisfies the match
condition for every candidate. -/
theorem C3_counterexample :
    nmatches [] "あ".data = true ∧ matchCond [] [] "あ".data = true :=
  ⟨by decide, by decide⟩

/-- C3 (amended): `matches(x, y)` is true exactly when `x` is a substring of
`y` or `y` is a substring of `x`, with Python's convention that the empty
string is a substring of everything; there is no empty-input guard, and a
member whose `nameJa` is empty satisfies the match condition against every
candidate and every alias list. -/
theorem C3_matches_iff_containment :
    (∀ x y : Str, nmatches x y = true ↔ (x <:+: y ∨ y <:+: x)) ∧
    (∀ (l : List Str) (s : Str), matchCond [] l s = true) := by
  constructor
  · intro x y
    simp [ nmatches, Bool.or_eq_true, pyIn_iff]
  · intro l s
    simp [ matchCond, pyIn_nil_left]

/-- C3 witness: the amended characterization applied at a concrete pair. -/
theorem C3_witness : nmatches "そら".data "ときのそら".data = true :=
  (C3_matches_iff_containment.1 "そら".data "ときのそら".data).mpr
    (Or.inl (by decide))

/-- C5 counterexample: the merge of update_members.py checks only for
duplicates, so a candidate equal to the member's `nameJa` is appended to the
`ja` alias list — the list then contains the canonical Japanese name. -/
theorem C5_counterexample :
    "星街すいせい".data ∈
      addLoopUM "星街すいせい".data ["すいちゃん".data] ["星街すいせい".data] := by
  decide

/-- C5 (amended): the sync_official_names.py merge does reject candidates
equal to `nameJa`: if the `ja` alias list does not contain the member's
`nameJa`, it still does not contain it after the whole schedule-name loop.
The update_members.py merge has no such check and can append `nameJa`
(see the counterexample). -/
theorem C5_sync_never_adds_canonical (memberJa : Str) (S : List Str) :
    ∀ aliases : List Str, memberJa ∉ aliases →
      memberJa ∉ (addLoop memberJa aliases S).1 := by
  induction S with
  | nil => intro aliases h; exact h
  | cons s rest ih =>
    intro aliases h
    rw [ addLoop]
    by_cases hm : matchCond memberJa aliases s
    · rw [if_pos hm]
      apply ih
      unfold mergeSync
      by_cases hc : s ∉ aliases ∧ s ≠ memberJa
      · rw [if_pos hc]
        intro hmem
        rcases List.mem_append.mp hmem with h1 | h2
        · exact h h1
        · exact hc.2 (List.mem_singleton.mp h2).symm
      · rw [if_neg hc]; exact h
    · rw [if_neg hm]; exact ih aliases h

/-- C5 witness: the amended claim at a concrete member and schedule list
(the candidate `"そら"` is merged, the canonical `"ときのそら"` is not). -/
theorem C5_witness :
    "ときのそら".data ∉ (addLoop "ときのそら".data [] ["そら".data]).1 :=
  C5_sync_never_adds_canonical "ときのそら".data ["そら".data] [] (by decide)

/-- C6: the duplicate-free merge of update_members.py lines 108-113: a
present candidate leaves the list unchanged with `added = false`; an absent
candidate is appended at the end preserving all prior entries; a candidate
occurring at most once before occurs at most once after; and merging the
same candidate twice gives the same list as merging it once. -/
theorem C6_merge_no_duplicate (l : List Str) (cand : Str) :
    (cand ∈ l → mergeUM l cand = (l, false)) ∧
    (cand ∉ l → mergeUM l cand = (l ++ [cand], true)) ∧
    (l.count cand ≤ 1 → (mergeUM l cand).1.count cand ≤ 1) ∧
    (mergeUM (mergeUM l cand).1 cand).1 = (mergeUM l cand).1 := by
  by_cases h : cand ∈ l
  · refine ⟨fun _ => by simp [ mergeUM, h], fun hn => absurd h hn,
      fun hc => by simpa [ mergeUM, h] using hc, ?_⟩
    simp [ mergeUM, h]
  · have hc0 : l.count cand = 0 := List.count_eq_zero.mpr h
    refine ⟨fun hmem => absurd hmem h, fun _ => by simp [ mergeUM, h], ?_, ?_⟩
    · intro _
      simp [ mergeUM, h, List.count_append, hc0]
    · have h2 : cand ∈ l ++ [cand] := List.mem_append.mpr (Or.inr (by simp))
      simp [ mergeUM, h, h2]

/-- C6 witness: Scenario 3 — merging `"아즈키"` into the empty Korean alias
list appends it with `added = true`. -/
theorem C6_witness : mergeUM [] "아즈키".data = (["아즈키".data], true) :=
  (C6_merge_no_duplicate [] "아즈키".data).2.1 (by decide)

theorem mergeSync_subset (aliases : List Str) (s memberJa : Str) :
    ∀ x ∈ aliases, x ∈ (mergeSync aliases s memberJa).1 := by
  intro x hx
  unfold mergeSync
  by_cases hc : s ∉ aliases ∧ s ≠ memberJa
  · rw [if_pos hc]; exact List.mem_append.mpr (Or.inl hx)
  · rw [if_neg hc]; exact hx

theorem addLoop_mem_mono (memberJa : Str) (S : List Str) :
    ∀ (aliases : List Str) (x : Str), x ∈ aliases →
      x ∈ (addLoop memberJa aliases S).1 := by
  induction S with
  | nil => intro aliases x hx; exact hx
  | cons s rest ih =>
    intro aliases x hx
    rw [ addLoop]
    by_cases hm : matchCond memberJa aliases s
    · rw [if_pos hm]
      exact ih _ x (mergeSync_subset aliases s memberJa x hx)
    · rw [if_neg hm]; exact ih aliases x hx

theorem matchCond_mono {memberJa : Str} {l1 l2 : List Str} {s : Str}
    (hsub : ∀ x ∈ l1, x ∈ l2) (h : matchCond memberJa l1 s = true) :
    matchCond memberJa l2 s = true := by
  rw [ matchCond, Bool.or_eq_true, Bool.or_eq_true] at h ⊢
  rcases h with (h1 | h2) | h3
  · exact Or.inl (Or.inl h1)
  · exact Or.inl (Or.inr h2)
  · rcases List.any_eq_true.mp h3 with ⟨a, ha, hpa⟩
    exact Or.inr (List.any_eq_true.mpr ⟨a, hsub a ha, hpa⟩)

/-- C4 counterexample: there is no first-match-wins.  Two members whose
`nameJa` both contain the schedule candidate `"そら"` (which passes the
denylist) each receive it as a new `ja` alias in the same pipeline run. -/
theorem C4_counterexample :
    (runRegistry [] (scheduleNames ["そら".data])
        [⟨"A".data, some "ときのそら".data, some "코".data, some ⟨some [], none⟩⟩,
         ⟨"B".data, some "そらちゃん".data, some "코".data, some ⟨some [], none⟩⟩]).map
      (fun r => (r.member.aliases.getD ⟨none, none⟩).ja.getD []) =
    [["そら".data], ["そら".data]] := by
  decide

/-- C4 (amended): the pipeline offers every candidate to every member —
whenever the match condition holds for a candidate of the schedule list
against a member's `nameJa` and initial alias list, that member receives the
candidate by the end of his schedule-name loop (unless it equals `nameJa`);
the alias list only grows during the loop, so a match can never be lost.
Several members can therefore receive the same candidate. -/
theorem C4_every_matching_member_receives (memberJa : Str) (ja0 : List Str)
    (S : List Str) (s : Str) (hS : s ∈ S)
    (hm : matchCond memberJa ja0 s = true) (hne : s ≠ memberJa) :
    s ∈ (addLoop memberJa ja0 S).1 := by
  suffices h : ∀ (T : List Str) (aliases : List Str),
      (∀ x ∈ ja0, x ∈ aliases) → s ∈ T → s ∈ (addLoop memberJa aliases T).1 from
    h S ja0 (fun x hx => hx) hS
  intro T
  induction T with
  | nil => intro aliases _ hs; cases hs
  | cons t rest ih =>
    intro aliases hsub hs
    rw [ addLoop]
    by_cases hmc : matchCond memberJa aliases t
    · rw [if_pos hmc]
      rcases List.mem_cons.mp hs with rfl | hs'
      · apply addLoop_mem_mono
        unfold mergeSync
        by_cases hc : s ∉ aliases ∧ s ≠ memberJa
        · rw [if_pos hc]; exact List.mem_append.mpr (Or.inr (by simp))
        · rw [if_neg hc]
          by_contra hns
          exact hc ⟨hns, hne⟩
      · exact ih _ (fun x hx => mergeSync_subset aliases t memberJa x (hsub x hx)) hs'
    · rw [if_neg hmc]
      rcases List.mem_cons.mp hs with rfl | hs'
      · exact absurd (matchCond_mono hsub hm) hmc
      · exact ih aliases hsub hs'

/-- C4 witness: the amended claim at a concrete member — `"そら"` matches
`nameJa = "ときのそら"` and ends up in the alias list. -/
theorem C4_witness :
    "そら".data ∈ (addLoop "ときのそら".data [] ["そら".data]).1 :=
  C4_every_matching_member_receives "ときのそら".data [] ["そら".data]
    "そら".data (by decide) (by decide) (by decide)

theorem step1_fields (off : List (Str × Str)) (m : Member) :
    (step1 off m).1.name = m.name ∧ (step1 off m).1.nameKo = m.nameKo ∧
    (step1 off m).1.aliases = m.aliases := by
  unfold step1
  split
  · exact ⟨rfl, rfl, rfl⟩
  · split
    · exact ⟨rfl, rfl, rfl⟩
    · exact ⟨rfl, rfl, rfl⟩

theorem step1_nameJa_of_lookup {off : List (Str × Str)} {m : Member} {v : Str}
    (h : lookupStr off m.name = some v) : (step1 off m).1.nameJa = some v := by
  simp only [ step1, h]
  split
  next h2 => exact h2
  next h2 => rfl

theorem step2_fields (m : Member) :
    (step2 m).1.name = m.name ∧ (step2 m).1.nameJa = m.nameJa ∧
    (step2 m).1.aliases = m.aliases := by
  unfold step2
  split
  · split
    · exact ⟨rfl, rfl, rfl⟩
    · exact ⟨rfl, rfl, rfl⟩
  · exact ⟨rfl, rfl, rfl⟩

theorem step3_fields (S : List Str) (m : Member) :
    (step3 S m).1.name = m.name ∧ (step3 S m).1.nameJa = m.nameJa ∧
    (step3 S m).1.nameKo = m.nameKo :=
  ⟨rfl, rfl, rfl⟩

theorem koFirst_isEmpty_false {m : Member} {k : Str}
    (hko : koAliasesNonempty m = true) (h : koFirst m.aliases = some k) :
    k.isEmpty = false := by
  cases hma : m.aliases with
  | none => exact absurd h (by simp [ koFirst, hma])
  | some a =>
    simp only [ koFirst, hma] at h
    simp only [ koAliasesNonempty, hma] at hko
    cases hk : a.ko with
    | none => simp [hk] at h
    | some l =>
      cases l with
      | nil => simp [hk] at h
      | cons k' ks =>
        simp only [hk] at h hko
        obtain rfl : k' = k := by simpa using h
        simp only [Option.getD_some, List.all_cons, Bool.and_eq_true] at hko
        simpa using hko.1

/-- C1 counterexample: the schedule-name pass is not idempotent.  With
`nameJa = "ときのそら"` and candidates `["そらまち", "そら"]`, the first run
appends only `"そら"` (`"そらまち"` matches nothing yet); on the second run
`"そらまち"` matches the alias `"そら"` appended by the first run and is
added as a new `ja` alias, so the second run changes the record. -/
theorem C1_counterexample :
    (runMember [] ["そらまち".data, "そら".data]
        ((runMember [] ["そらまち".data, "そら".data]
            ⟨"n".data, some "ときのそら".data, some "k".data,
             some ⟨some [], none⟩⟩).member)).jaAliasesAdded = 1 := by
  decide

/-- C1 (amended): on the second run over the state produced by the first,
the `nameJa` sync never fires again, and — provided the member's English
name is non-empty and every stored Korean alias is non-empty — the `nameKo`
write never fires again either.  The `ja`-alias pass, however, can add
further aliases on the second run (see the counterexample): an alias
appended late in the first run can make an earlier schedule name match. -/
theorem C1_second_run_no_name_writes (official : List (Str × Str))
    (S : List Str) (m : Member) (hname : m.name ≠ [])
    (hko : koAliasesNonempty m = true) :
    (runMember official S (runMember official S m).member).nameJaUpdated
        = false ∧
    (runMember official S (runMember official S m).member).nameKoWritten
        = false := by
  have hm1 := step1_fields official m
  have hm2 := step2_fields (step1 official m).1
  have hm3 := step3_fields S (step2 (step1 official m).1).1
  have f1 : (runMember official S m).member.name = m.name := by
    show (step3 S (step2 (step1 official m).1).1).1.name = m.name
    rw [hm3.1, hm2.1, hm1.1]
  have f2 : (runMember official S m).member.nameJa
      = (step1 official m).1.nameJa := by
    show (step3 S (step2 (step1 official m).1).1).1.nameJa = _
    rw [hm3.2.1, hm2.2.1]
  have f3 : (runMember official S m).member.nameKo
      = (step2 (step1 official m).1).1.nameKo := by
    show (step3 S (step2 (step1 official m).1).1).1.nameKo = _
    rw [hm3.2.2]
  constructor
  · show (step1 official (runMember official S m).member).2 = false
    cases hl : lookupStr official (runMember official S m).member.name with
    | none => unfold step1; rw [hl]
    | some v =>
      have hlm : lookupStr official m.name = some v := by rw [← f1]; exact hl
      have hja : (runMember official S m).member.nameJa = some v :=
        f2.trans (step1_nameJa_of_lookup hlm)
      simp only [ step1, hl]
      rw [if_pos hja]
  · show (step2 (step1 official (runMember official S m).member).1).2 = false
    have hpres : (step1 official (runMember official S m).member).1.nameKo
        = (runMember official S m).member.nameKo :=
      (step1_fields official (runMember official S m).member).2.1
    have hstable : strFalsy (runMember official S m).member.nameKo = false := by
      rw [f3]
      unfold step2
      by_cases hf : strFalsy (step1 official m).1.nameKo
      · rw [if_pos hf]
        cases hk : koFirst (step1 official m).1.aliases with
        | some k =>
          show k.isEmpty = false
          rw [hm1.2.2] at hk
          exact koFirst_isEmpty_false hko hk
        | none =>
          show ((step1 official m).1.name).isEmpty = false
          rw [hm1.1]
          cases hn : m.name.isEmpty
          · rfl
          · exact absurd (List.isEmpty_iff.mp hn) hname
      · rw [if_neg hf]
        exact Bool.not_eq_true _ ▸ Bool.of_not_eq_true hf
    unfold step2
    rw [hpres, if_neg (by rw [hstable]; exact Bool.false_ne_true)]

/-- C1 witness: the amended claim at a concrete member with no aliases and a
non-empty name. -/
theorem C1_witness :
    (runMember [] [] (runMember [] []
        (⟨"Tokino Sora".data, none, none, none⟩ : Member)).member).nameJaUpdated
        = false ∧
    (runMember [] [] (runMember [] []
        (⟨"Tokino Sora".data, none, none, none⟩ : Member)).member).nameKoWritten
        = false :=
  C1_second_run_no_name_writes [] [] ⟨"Tokino Sora".data, none, none, none⟩
    (by decide) (by decide)

/-- One `{label, value}` entry of a hashtag-profile record's `data` array. -/
structure Entry where
  label : Str
  value : Str
  deriving DecidableEq

/-- The allow-set of hashtag-related labels of
scripts/fix_japanese_labels.py line 82. -/
def allowSet : List Str :=
  ["해시태그".data, "방송 해시태그".data, "방송 태그".data,
   "팬아트 태그".data, "팬아트".data, "오시마크".data]

/-- The per-entry action of `process_json_file`
(scripts/fix_japanese_labels.py lines 74-86): entries whose label is in the
allow-set get their value normalized; all other entries are untouched, and
no label is ever modified. -/
def processEntryScripts (e : Entry) : Entry :=
  if e.label ∈ allowSet then { e with value := fixScripts e.value } else e

/-- `process_json_file` over the `data` array
(scripts/fix_japanese_labels.py lines 73-86). -/
def processJsonFile (entries : List Entry) : List Entry :=
  entries.map processEntryScripts

/-- `process_file` of fix_japanese_hashtag_labels.py lines 37-44 over the
`data` array: every entry with a string value is normalized, with no label
check at all. -/
def processFileSimple (entries : List Entry) : List Entry :=
  entries.map (fun e => { e with value := fixSimple e.value })

/-- C7 counterexample: `process_file` of fix_japanese_hashtag_labels.py
normalizes the value of an entry whose label (`"기타"`) is not in the
hashtag allow-set — the "other labels are untouched" part of the claim
fails for that processor. -/
theorem C7_counterexample :
    ("기타".data : Str) ∉ allowSet ∧
    processFileSimple [⟨"기타".data, "配信タグ:X".data⟩] =
      [⟨"기타".data, "방송 태그: X".data⟩] :=
  ⟨by decide, by decide⟩

/-- C7 (amended): `process_json_file` of scripts/fix_japanese_labels.py does
respect the allow-set — an entry whose label is outside it is returned
entirely unchanged — and neither processor ever modifies a label.
`process_file` of fix_japanese_hashtag_labels.py normalizes every value
regardless of label (see the counterexample). -/
theorem C7_allowset_frame (entries : List Entry) :
    (processJsonFile entries).map Entry.label = entries.map Entry.label ∧
    (processFileSimple entries).map Entry.label = entries.map Entry.label ∧
    ∀ e ∈ entries, e.label ∉ allowSet → processEntryScripts e = e := by
  refine ⟨?_, ?_, ?_⟩
  · induction entries with
    | nil => rfl
    | cons e es ih =>
      show (processEntryScripts e).label :: _ = e.label :: _
      rw [List.cons.injEq]
      refine ⟨?_, ih⟩
      unfold processEntryScripts
      split <;> rfl
  · induction entries with
    | nil => rfl
    | cons e es ih =>
      show ({ e with value := fixSimple e.value } : Entry).label :: _
          = e.label :: _
      rw [List.cons.injEq]
      exact ⟨rfl, ih⟩
  · intro e _ hlab
    unfold processEntryScripts
    rw [if_neg hlab]

/-- C7 witness: the amended claim applied at a concrete two-entry record —
the entry with the out-of-set label `"기타"` is untouched. -/
theorem C7_witness :
    processEntryScripts ⟨"기타".data, "配信タグ:X".data⟩ =
      ⟨"기타".data, "配信タグ:X".data⟩ :=
  (C7_allowset_frame [⟨"기타".data, "配信タグ:X".data⟩]).2.2
    ⟨"기타".data, "配信タグ:X".data⟩ (by simp) (by decide)

/-- The `OFFICIAL_KOREAN_NAMES` authoritative override table of
fix_korean_names.py lines 18-125. -/
def OFFICIAL_KOREAN_NAMES : List (Str × Str) :=
  [("Tokino Sora".data, "토키노 소라".data),
   ("Roboco-san".data, "로보코상".data),
   ("Sakura Miko".data, "사쿠라 미코".data),
   ("Hoshimachi Suisei".data, "호시마치 스이세이".data),
   ("AZKi".data, "아즈키".data),
   ("Yozora Mel".data, "요조라 멜".data),
   ("Akai Haato".data, "아카이 하아토".data),
   ("Aki Rosenthal".data, "아키 로젠탈".data),
   ("Natsuiro Matsuri".data, "나츠이로 마츠리".data),
   ("Shirakami Fubuki".data, "시라카미 후부키".data),
   ("Minato Aqua".data, "미나토 아쿠아".data),
   ("Murasaki Shion".data, "무라사키 시온".data),
   ("Nakiri Ayame".data, "나키리 아야메".data),
   ("Yuzuki Choco".data, "유즈키 초코".data),
   ("Oozora Subaru".data, "오오조라 스바루".data),
   ("Ookami Mio".data, "오오카미 미오".data),
   ("Nekomata Okayu".data, "네코마타 오카유".data),
   ("Inugami Korone".data, "이누가미 코로네".data),
   ("Usada Pekora".data, "우사다 페코라".data),
   ("Uruha Rushia".data, "우루하 루시아".data),
   ("Shiranui Flare".data, "시라누이 후레아".data),
   ("Shirogane Noel".data, "시로가네 노엘".data),
   ("Houshou Marine".data, "호쇼 마린".data),
   ("Amane Kanata".data, "아마네 카나타".data),
   ("Tsunomaki Watame".data, "츠노마키 와타메".data),
   ("Tokoyami Towa".data, "토코야미 토와".data),
   ("Himemori Luna".data, "히메모리 루나".data),
   ("Yukihana Lamy".data, "유키하나 라미".data),
   ("Momosuzu Nene".data, "모모스즈 네네".data),
   ("Shishiro Botan".data, "시시로 보탄".data),
   ("Omaru Polka".data, "오마루 폴카".data),
   ("La+ Darknesss".data, "라플라스 다크니스".data),
   ("Takane Lui".data, "타카네 루이".data),
   ("Hakui Koyori".data, "하쿠이 코요리".data),
   ("Kazama Iroha".data, "카자마 이로하".data),
   ("Sakamata Chloe".data, "사카마타 클로에".data),
   ("Hiodoshi Ao".data, "히오도시 아오".data),
   ("Otonose Kanade".data, "오토노세 카나데".data),
   ("Ichijou Ririka".data, "이치죠 리리카".data),
   ("Juufuutei Raden".data, "주후테이 라덴".data),
   ("Todoroki Hajime".data, "토도로키 하지메".data),
   ("Isaki Riona".data, "이사키 리오나".data),
   ("Koganei Niko".data, "코가네이 니코".data),
   ("Mizumiya Su".data, "미즈미야 스우".data),
   ("Rindo Chihaya".data, "린도 치하야".data),
   ("Kikirara Vivi".data, "키키라라 비비".data),
   ("Ayunda Risu".data, "아윤다 리스".data),
   ("Moona Hoshinova".data, "무나 호시노바".data),
   ("Airani Iofifteen".data, "아이라니 이오피프틴".data),
   ("Kureiji Ollie".data, "쿠레이지 올리".data),
   ("Anya Melfissa".data, "아냐 멜피사".data),
   ("Pavolia Reine".data, "파볼리아 레이네".data),
   ("Vestia Zeta".data, "베스티아 제타".data),
   ("Kaela Kovalskia".data, "카엘라 코발스키아".data),
   ("Kobo Kanaeru".data, "코보 카나에루".data),
   ("Mori Calliope".data, "모리 칼리오페".data),
   ("Takanashi Kiara".data, "타카나시 키아라".data),
   ("Ninomae Ina'nis".data, "니노마에 이나니스".data),
   ("Gawr Gura".data, "가우르 구라".data),
   ("Watson Amelia".data, "왓슨 아멜리아".data),
   ("Tsukumo Sana".data, "츠쿠모 사나".data),
   ("Ceres Fauna".data, "세레스 파우나".data),
   ("Ouro Kronii".data, "오로 크로니".data),
   ("Nanashi Mumei".data, "나나시 무메이".data),
   ("Hakos Baelz".data, "하코스 벨즈".data),
   ("Shiori Novella".data, "시오리 노벨라".data),
   ("Koseki Bijou".data, "코세키 비쥬".data),
   ("Nerissa Ravencroft".data, "네리사 레이븐크로프트".data),
   ("FuwaMoco".data, "후와모코".data),
   ("Elizabeth Rose Bloodflame".data, "엘리자베스 로즈 블러드플레임".data),
   ("Cecilia Immergreen".data, "세실리아 이머그린".data),
   ("Raora Panthera".data, "라오라 판테라".data),
   ("Gigi Murin".data, "지지 무린".data)]

/-- The romanization `mapping` of `romanize_to_korean` in update_members.py
lines 22-54. -/
def romanizeTable : List (Str × Str) :=
  [("Usada Pekora".data, "우사다 페코라".data),
   ("Sakura Miko".data, "사쿠라 미코".data),
   ("Shiranui Flare".data, "시라누이 후레아".data),
   ("Tokino Sora".data, "토키노 소라".data),
   ("Roboco-san".data, "로보코상".data),
   ("Akai Haato".data, "아카이 하아토".data),
   ("Aki Rosenthal".data, "아키 로젠탈".data),
   ("Shirakami Fubuki".data, "시라카미 후부키".data),
   ("Natsuiro Matsuri".data, "나츠이로 마츠리".data),
   ("Yozora Mel".data, "요조라 멜".data),
   ("Murasaki Shion".data, "무라사키 시온".data),
   ("Nakiri Ayame".data, "나키리 아야메".data),
   ("Oozora Subaru".data, "오오조라 스바루".data),
   ("Minato Aqua".data, "미나토 아쿠아".data),
   ("Hoshimachi Suisei".data, "호시마치 스이세이".data),
   ("Tsunomaki Watame".data, "츠노마키 와타메".data),
   ("Tokoyami Towa".data, "토코야미 토와".data),
   ("Himemori Luna".data, "히메모리 루나".data),
   ("Yukihana Lamy".data, "유키하나 라미".data),
   ("Momosuzu Nene".data, "모모스즈 네네".data),
   ("Shishiro Botan".data, "시시로 보탄".data),
   ("Omaru Polka".data, "오마루 폴카".data),
   ("La+ Darknesss".data, "라플라스 다크니스".data),
   ("Takane Lui".data, "타카네 루이".data),
   ("Hakui Koyori".data, "하쿠이 코요리".data),
   ("Kazama Iroha".data, "카자마 이로하".data),
   ("Inugami Korone".data, "이누가미 코로네".data),
   ("Nekomata Okayu".data, "네코마타 오카유".data),
   ("Ookami Mio".data, "오오카미 미오".data),
   ("Amane Kanata".data, "아마네 카나타".data),
   ("AZKi".data, "아즈키".data)]

/-- `romanize_to_korean` of update_members.py lines 19-55: static lookup,
falling back to the input name itself. -/
def romanize_to_korean (name : Str) : Str :=
  (lookupStr romanizeTable name).getD name

/-- The tail of the nameKo fallback chain (reached when there is no
authoritative override and no existing non-empty `nameKo`): first Korean
alias, else romanization with fallback to the canonical name
(update_members.py lines 83-90). -/
def resolveFallback (m : Member) : Str :=
  match koFirst m.aliases with
  | some k => k
  | none => romanize_to_korean m.name

/-- The nameKo resolution chain of the specification (§4.4), assembled from
the two scripts that implement it: the authoritative override table of
fix_korean_names.py (lines 134-146, the only branch that replaces an
existing non-empty `nameKo`); else keep an existing non-empty `nameKo`;
else the first Korean alias; else the romanization table with final
fallback to the canonical name (update_members.py lines 83-93,
fix_korean_names.py lines 147-151). -/
def resolveNameKo (m : Member) : Str :=
  match lookupStr OFFICIAL_KOREAN_NAMES m.name with
  | some v => v
  | none =>
    match m.nameKo with
    | some (c :: cs) => c :: cs
    | _ => resolveFallback m

theorem lookupStr_val_mem {table : List (Str × Str)} {key v : Str}
    (h : lookupStr table key = some v) : ∃ p ∈ table, p.2 = v := by
  unfold lookupStr at h
  cases hf : table.find? (fun p => p.1 == key) with
  | none => rw [hf] at h; cases h
  | some p =>
    rw [hf] at h
    simp only [Option.map_some'] at h
    exact ⟨p, List.mem_of_find?_eq_some hf, Option.some.inj h⟩

theorem official_values_nonempty :
    OFFICIAL_KOREAN_NAMES.all (fun p => ! List.isEmpty p.2) = true := by decide

theorem romanize_values_nonempty :
    romanizeTable.all (fun p => ! List.isEmpty p.2) = true := by decide

theorem resolveFallback_nonempty (m : Member) (hname : m.name ≠ [])
    (hko : koAliasesNonempty m = true) : resolveFallback m ≠ [] := by
  unfold resolveFallback
  cases hk : koFirst m.aliases with
  | some k =>
    show k ≠ []
    have he : k.isEmpty = false := koFirst_isEmpty_false hko hk
    intro hnil
    rw [hnil] at he
    cases he
  | none =>
    unfold romanize_to_korean
    cases hr : lookupStr romanizeTable m.name with
    | none => show m.name ≠ []; exact hname
    | some v =>
      show v ≠ []
      obtain ⟨p, hp, hpv⟩ := lookupStr_val_mem hr
      intro hnil
      have h2 := List.all_eq_true.mp romanize_values_nonempty p hp
      rw [hpv, hnil] at h2
      cases h2

/-- C9 counterexample: a record whose only Korean alias is the empty string.
Branch 3 of the fallback chain (`member['aliases']['ko'][0]`,
update_members.py line 87) returns it verbatim, so the resolution writes an
empty `nameKo` although the canonical name `"A"` is non-empty. -/
theorem C9_counterexample :
    resolveNameKo ⟨"A".data, none, none, some ⟨none, some [[]]⟩⟩ = [] ∧
    ("A".data : Str) ≠ [] :=
  ⟨by decide, by decide⟩

/-- C9 (amended): for every member whose canonical name is non-empty and
whose stored Korean aliases are all non-empty, the resolution chain returns
a non-empty string — every branch (override table value, kept `nameKo`,
first Korean alias, romanization table value, canonical name) is then
non-empty.  Without the alias condition the chain can return the empty
string (see the counterexample). -/
theorem C9_resolve_nonempty (m : Member) (hname : m.name ≠ [])
    (hko : koAliasesNonempty m = true) : resolveNameKo m ≠ [] := by
  cases hov : lookupStr OFFICIAL_KOREAN_NAMES m.name with
  | some v =>
    simp only [ resolveNameKo, hov]
    obtain ⟨p, hp, hpv⟩ := lookupStr_val_mem hov
    intro hnil
    have h2 := List.all_eq_true.mp official_values_nonempty p hp
    rw [hpv, hnil] at h2
    cases h2
  | none =>
    simp only [ resolveNameKo, hov]
    cases hnk : m.nameKo with
    | some l =>
      cases l with
      | cons c cs => simp only; exact List.cons_ne_nil c cs
      | nil => simp only; exact resolveFallback_nonempty m hname hko
    | none => simp only; exact resolveFallback_nonempty m hname hko

/-- C9 witness: the amended claim at a concrete member resolved through the
authoritative override table. -/
theorem C9_witness :
    resolveNameKo ⟨"Gawr Gura".data, none, none, none⟩ ≠ [] :=
  C9_resolve_nonempty ⟨"Gawr Gura".data, none, none, none⟩
    (by decide) (by decide)

end HoloBot
